import Mathlib

/-!
Verification of the temporal / sampling / validation core of the
Asana-Automation seed-data generator.

Conventions of the shallow embedding:
* a Python `datetime` is a rational number of seconds since 1970-01-01 00:00
  (Python datetimes have microsecond resolution; ℚ is exact and contains it);
* a calendar date is the integer day number `⌊t / 86400⌋`;
* Python `timedelta.days` is floor division, and `date.weekday()` is 0 for
  Monday (1970-01-01 was a Thursday, weekday 3);
* the `holidays.US()` calendar held by `TemporalGenerator` is modelled as a
  finite set `H : Finset ℤ` of day numbers, passed explicitly;
* every random draw consumed by the source (`random.random`,
  `np.random.lognormal`, `random.choices`, `random.randint`, …) is modelled
  as an explicit input holding the value the library call returned.
-/

namespace AsanaAutomation

/-- Day number of a timestamp: Python `datetime.date()` as days since epoch. -/
def dayOf (t : ℚ) : ℤ := ⌊t / 86400⌋

/-- Python `date.weekday()`: Monday = 0 … Sunday = 6 (epoch day 0 is a Thursday). -/
def weekdayOfDay (d : ℤ) : ℤ := (d + 3) % 7

/-- Weekday of a timestamp, as in `created_at.weekday()`. -/
def weekdayOf (t : ℚ) : ℤ := weekdayOfDay (dayOf t)

/-- Python `(a - b).days` for two datetimes: floor of the difference in days. -/
def daysBetween (a b : ℚ) : ℤ := ⌊(a - b) / 86400⌋

/-- Seconds elapsed since midnight of the timestamp's day. -/
def secOfDay (t : ℚ) : ℚ := t - 86400 * (dayOf t : ℚ)

/-- Python `ts.hour`: the hour-of-day component of a timestamp. -/
def hourOf (t : ℚ) : ℤ := ⌊secOfDay t / 3600⌋

/-- Python `datetime(ts.year, ts.month, ts.day, h, m, s)` /
`ts.replace(hour := h, minute := m, second := s)`: keep the day, set the time. -/
def setTime (t : ℚ) (h m s : ℤ) : ℚ := 86400 * (dayOf t : ℚ) + (h * 3600 + m * 60 + s)

/-! ### `TemporalGenerator._get_completion_probability` (src/utils/temporal.py 402-457) -/

/-- Source `base_rates` dictionary with its `.get(department, 0.68)` default. -/
def baseRates (department : String) : ℚ :=
  if department = "engineering" then 65/100
  else if department = "product" then 70/100
  else if department = "marketing" then 75/100
  else if department = "sales" then 60/100
  else if department = "operations" then 72/100
  else 68/100

/-- Source `project_adjustments` dictionary with its `.get(project_type, 0.0)` default. -/
def projectAdjustments (projectType : String) : ℚ :=
  if projectType = "sprint" then 15/100
  else if projectType = "bug_tracking" then 5/100
  else if projectType = "feature_development" then 0
  else if projectType = "campaign" then 10/100
  else if projectType = "research" then -(20/100)
  else 0

/-- `TemporalGenerator._get_completion_probability`, translated clause by clause:
base rate + project adjustment, the due-date `elif` chain, the weekday chain,
and the final clamp `max(0.1, min(0.95, rate))`. -/
def getCompletionProbability (department projectType : String)
    (createdAt : ℚ) (dueDate : Option ℚ) : ℚ :=
  let rate := baseRates department + projectAdjustments projectType
  let rate :=
    match dueDate with
    | none => rate
    | some due =>
      let daysUntilDue := daysBetween due createdAt
      if daysUntilDue ≤ 0 then rate * (1/2)
      else if daysUntilDue ≤ 3 then rate * (12/10)
      else if daysUntilDue ≤ 7 then rate * (11/10)
      else if 30 < daysUntilDue then rate * (9/10)
      else rate
  let rate :=
    if weekdayOf createdAt = 4 then rate * (85/100)
    else if weekdayOf createdAt = 5 ∨ weekdayOf createdAt = 6 then rate * (7/10)
    else rate
  max (1/10) (min (95/100) rate)

/-- Spec-side restatement of claim C5's wording: the completion probability is
the base rate plus project adjustment, multiplied by a due-date factor and a
weekday factor, then clamped to [0.10, 0.95]. Written from the claim, to be
compared with `getCompletionProbability` (written from the source). -/
def dueDateFactor (createdAt : ℚ) : Option ℚ → ℚ
  | none => 1
  | some due =>
      let daysUntilDue := daysBetween due createdAt
      if daysUntilDue ≤ 0 then 1/2
      else if daysUntilDue ≤ 3 then 12/10
      else if daysUntilDue ≤ 7 then 11/10
      else if 30 < daysUntilDue then 9/10
      else 1

/-- Spec-side weekday factor of claim C5: ×0.85 for Friday creation, ×0.7 for weekend. -/
def weekdayFactor (createdAt : ℚ) : ℚ :=
  if weekdayOf createdAt = 4 then 85/100
  else if weekdayOf createdAt = 5 ∨ weekdayOf createdAt = 6 then 7/10
  else 1

/-- Spec-side completion probability of claim C5, as a product of factors. -/
def completionProbabilitySpec (department projectType : String)
    (createdAt : ℚ) (dueDate : Option ℚ) : ℚ :=
  max (1/10) (min (95/100)
    ((baseRates department + projectAdjustments projectType)
      * dueDateFactor createdAt dueDate * weekdayFactor createdAt))

/-- Day number of 2026-01-02 (a Friday): 56 years after the epoch, 14 leap days. -/
def day20260102 : ℤ := 20455

/-- Timestamp 2026-01-02 00:00:00. -/
def ts20260102 : ℚ := 20455 * 86400

/-- Timestamp 2026-01-01 00:00:00 (the overdue due date of the C5 scenario). -/
def ts20260101 : ℚ := 20454 * 86400

/-- Timestamp 2026-01-12 00:00:00 (a neutral due date 10 days out: no
due-date multiplier applies, so it is the "otherwise-identical non-overdue"
comparison point of the C5 scenario). -/
def ts20260112 : ℚ := 20465 * 86400

/-- C5: the completion probability is the department base rate plus the
project-type adjustment, multiplied by 0.5 when overdue at creation
(days until due ≤ 0), 1.2 when due within 3 days, 1.1 within 7 days,
0.9 beyond 30 days, 0.85 for Friday creation and 0.7 for weekend creation,
clamped to [0.10, 0.95]; consequently an engineering/sprint item created
2026-01-02 (a Friday) with due date 2026-01-01 receives exactly half the
probability of the otherwise-identical item whose due date (2026-01-12) is in
the neutral 8–30 day band. -/
theorem completion_probability_spec_and_overdue_halving :
    (∀ (department projectType : String) (createdAt : ℚ) (dueDate : Option ℚ),
      getCompletionProbability department projectType createdAt dueDate
        = completionProbabilitySpec department projectType createdAt dueDate)
    ∧ getCompletionProbability "engineering" "sprint" ts20260102 (some ts20260101)
        = getCompletionProbability "engineering" "sprint" ts20260102 (some ts20260112) / 2 := by
  constructor
  · intro department projectType createdAt dueDate
    cases dueDate with
    | none =>
      simp only [getCompletionProbability, completionProbabilitySpec, dueDateFactor,
        weekdayFactor]
      split_ifs <;> ring
    | some due =>
      simp only [getCompletionProbability, completionProbabilitySpec, dueDateFactor,
        weekdayFactor]
      split_ifs <;> ring
  · have h1 : daysBetween ts20260101 ts20260102 = -1 := by
      unfold daysBetween ts20260101 ts20260102; norm_num
    have h2 : daysBetween ts20260112 ts20260102 = 10 := by
      unfold daysBetween ts20260112 ts20260102; norm_num
    have h3 : weekdayOf ts20260102 = 4 := by
      unfold weekdayOf weekdayOfDay dayOf ts20260102; norm_num
    simp only [getCompletionProbability, h1, h2, h3]
    norm_num [baseRates, projectAdjustments]

/-! ### Business-day calendar (src/utils/temporal.py 145-215)

`TemporalGenerator.is_business_day` tests weekday < 5 and absence from the
`holidays.US()` calendar; the calendar object is modelled as the finite set
`H` of its day numbers. -/

/-- `TemporalGenerator.is_business_day`: weekday Mon–Fri and not a holiday. -/
def isBusinessDay (H : Finset ℤ) (d : ℤ) : Bool :=
  decide (weekdayOfDay d < 5) && decide (d ∉ H)

/-- Beyond any bound there is a business day (weekdays recur every 7 days and
the holiday set is finite), so the source's forward `while` loops terminate. -/
theorem exists_business_ge (H : Finset ℤ) (N : ℤ) :
    ∃ x : ℤ, N ≤ x ∧ isBusinessDay H x = true := by
  obtain ⟨M, hM⟩ := H.exists_le
  refine ⟨max N (M + 1) + (4 - max N (M + 1)) % 7, ?_, ?_⟩
  · have := Int.emod_nonneg (4 - max N (M + 1)) (by norm_num : (7:ℤ) ≠ 0)
    have := le_max_left N (M + 1)
    omega
  · have hw : weekdayOfDay (max N (M + 1) + (4 - max N (M + 1)) % 7) = 0 := by
      unfold weekdayOfDay; omega
    have hnot : max N (M + 1) + (4 - max N (M + 1)) % 7 ∉ H := by
      intro hmem
      have h1 := hM _ hmem
      have h2 := Int.emod_nonneg (4 - max N (M + 1)) (by norm_num : (7:ℤ) ≠ 0)
      have h3 := le_max_right N (M + 1)
      omega
    simp [isBusinessDay, hw, hnot]

/-- Below any bound there is a business day: the backward loops terminate. -/
theorem exists_business_le (H : Finset ℤ) (N : ℤ) :
    ∃ x : ℤ, x ≤ N ∧ isBusinessDay H x = true := by
  obtain ⟨M, hM⟩ := (H.image (fun x => -x)).exists_le
  have hlow : ∀ x ∈ H, -M ≤ x := by
    intro x hx
    have := hM (-x) (Finset.mem_image_of_mem _ hx)
    omega
  refine ⟨min N (-M - 1) - (min N (-M - 1) - 4) % 7, ?_, ?_⟩
  · have := Int.emod_nonneg (min N (-M - 1) - 4) (by norm_num : (7:ℤ) ≠ 0)
    have := min_le_left N (-M - 1)
    omega
  · have hw : weekdayOfDay (min N (-M - 1) - (min N (-M - 1) - 4) % 7) = 0 := by
      unfold weekdayOfDay; omega
    have hnot : min N (-M - 1) - (min N (-M - 1) - 4) % 7 ∉ H := by
      intro hmem
      have h1 := hlow _ hmem
      have h2 := Int.emod_nonneg (min N (-M - 1) - 4) (by norm_num : (7:ℤ) ≠ 0)
      have h3 := min_le_right N (-M - 1)
      omega
    simp [isBusinessDay, hw, hnot]

/-- Termination certificate for the forward search starting strictly after `d`. -/
theorem nextSearch (H : Finset ℤ) (d : ℤ) :
    ∃ k : ℕ, isBusinessDay H (d + 1 + k) = true := by
  obtain ⟨x, hx, hb⟩ := exists_business_ge H (d + 1)
  exact ⟨(x - (d + 1)).toNat, by rwa [show d + 1 + ((x - (d + 1)).toNat : ℤ) = x by omega]⟩

/-- Termination certificate for the backward search starting strictly before `d`. -/
theorem prevSearch (H : Finset ℤ) (d : ℤ) :
    ∃ k : ℕ, isBusinessDay H (d - 1 - k) = true := by
  obtain ⟨x, hx, hb⟩ := exists_business_le H (d - 1)
  exact ⟨((d - 1) - x).toNat, by rwa [show d - 1 - (((d - 1) - x).toNat : ℤ) = x by omega]⟩

/-- Day-level core of `TemporalGenerator.get_next_business_day`: the source adds
one day at a time until `is_business_day` holds, i.e. it lands on the least
business day strictly after `d`. -/
def nextBusinessDay (H : Finset ℤ) (d : ℤ) : ℤ := d + 1 + Nat.find (nextSearch H d)

/-- Day-level core of `TemporalGenerator.get_previous_business_day`. -/
def prevBusinessDay (H : Finset ℤ) (d : ℤ) : ℤ := d - 1 - Nat.find (prevSearch H d)

theorem nextBusinessDay_isBusiness (H : Finset ℤ) (d : ℤ) :
    isBusinessDay H (nextBusinessDay H d) = true := Nat.find_spec (nextSearch H d)

theorem lt_nextBusinessDay (H : Finset ℤ) (d : ℤ) : d < nextBusinessDay H d := by
  unfold nextBusinessDay; omega

theorem nextBusinessDay_min (H : Finset ℤ) (d x : ℤ) (h1 : d < x)
    (h2 : x < nextBusinessDay H d) : isBusinessDay H x = false := by
  have hk : (x - (d + 1)).toNat < Nat.find (nextSearch H d) := by
    unfold nextBusinessDay at h2; omega
  have := Nat.find_min (nextSearch H d) hk
  rwa [show d + 1 + ((x - (d + 1)).toNat : ℤ) = x by omega, Bool.not_eq_true] at this

theorem prevBusinessDay_isBusiness (H : Finset ℤ) (d : ℤ) :
    isBusinessDay H (prevBusinessDay H d) = true := Nat.find_spec (prevSearch H d)

theorem prevBusinessDay_lt (H : Finset ℤ) (d : ℤ) : prevBusinessDay H d < d := by
  unfold prevBusinessDay; omega

theorem prevBusinessDay_max (H : Finset ℤ) (d x : ℤ) (h1 : x < d)
    (h2 : prevBusinessDay H d < x) : isBusinessDay H x = false := by
  have hk : ((d - 1) - x).toNat < Nat.find (prevSearch H d) := by
    unfold prevBusinessDay at h2; omega
  have := Nat.find_min (prevSearch H d) hk
  rwa [show d - 1 - (((d - 1) - x).toNat : ℤ) = x by omega, Bool.not_eq_true] at this

/-- Characterization used to evaluate `nextBusinessDay` at concrete inputs. -/
theorem nextBusinessDay_eq (H : Finset ℤ) (d e : ℤ) (h1 : d < e)
    (h2 : isBusinessDay H e = true)
    (h3 : ∀ x ∈ Finset.Ioo d e, isBusinessDay H x = false) :
    nextBusinessDay H d = e := by
  rcases lt_trichotomy (nextBusinessDay H d) e with h | h | h
  · have := h3 (nextBusinessDay H d) (Finset.mem_Ioo.2 ⟨lt_nextBusinessDay H d, h⟩)
    rw [nextBusinessDay_isBusiness H d] at this
    exact absurd this (by simp)
  · exact h
  · have := nextBusinessDay_min H d e h1 h
    rw [h2] at this
    exact absurd this (by simp)

/-- Characterization used to evaluate `prevBusinessDay` at concrete inputs. -/
theorem prevBusinessDay_eq (H : Finset ℤ) (d e : ℤ) (h1 : e < d)
    (h2 : isBusinessDay H e = true)
    (h3 : ∀ x ∈ Finset.Ioo e d, isBusinessDay H x = false) :
    prevBusinessDay H d = e := by
  rcases lt_trichotomy (prevBusinessDay H d) e with h | h | h
  · have := prevBusinessDay_max H d e h1 h
    rw [h2] at this
    exact absurd this (by simp)
  · exact h
  · have := h3 (prevBusinessDay H d) (Finset.mem_Ioo.2 ⟨h, prevBusinessDay_lt H d⟩)
    rw [prevBusinessDay_isBusiness H d] at this
    exact absurd this (by simp)

/-- Forward half of `get_business_day_offset`'s loop: `n` iterations of
"advance to the next business day". -/
def offsetForward (H : Finset ℤ) : ℕ → ℤ → ℤ
  | 0, d => d
  | n + 1, d => offsetForward H n (nextBusinessDay H d)

/-- Backward half of `get_business_day_offset`'s loop. -/
def offsetBackward (H : Finset ℤ) : ℕ → ℤ → ℤ
  | 0, d => d
  | n + 1, d => offsetBackward H n (prevBusinessDay H d)

/-- Day-level `TemporalGenerator.get_business_day_offset`: `offset_days = 0`
returns the base unchanged; otherwise the loop steps one calendar day at a
time in the sign of the offset, decrementing the remaining count only on
business days. -/
def businessDayOffset (H : Finset ℤ) (base : ℤ) (offsetDays : ℤ) : ℤ :=
  if offsetDays = 0 then base
  else if 0 < offsetDays then offsetForward H offsetDays.toNat base
  else offsetBackward H (-offsetDays).toNat base

theorem offsetForward_succ_comm (H : Finset ℤ) (n : ℕ) (d : ℤ) :
    offsetForward H (n + 1) d = nextBusinessDay H (offsetForward H n d) := by
  induction n generalizing d with
  | zero => rfl
  | succ m ih =>
    show offsetForward H (m + 1) (nextBusinessDay H d)
        = nextBusinessDay H (offsetForward H (m + 1) d)
    rw [ih, offsetForward]

theorem offsetForward_isBusiness (H : Finset ℤ) (n : ℕ) (d : ℤ)
    (h : isBusinessDay H d = true) : isBusinessDay H (offsetForward H n d) = true := by
  induction n generalizing d with
  | zero => exact h
  | succ m ih => exact ih (nextBusinessDay H d) (nextBusinessDay_isBusiness H d)

theorem offsetForward_isBusiness_pos (H : Finset ℤ) (n : ℕ) (d : ℤ) (h : 0 < n) :
    isBusinessDay H (offsetForward H n d) = true := by
  cases n with
  | zero => omega
  | succ m =>
    exact offsetForward_isBusiness H m (nextBusinessDay H d) (nextBusinessDay_isBusiness H d)

theorem offsetBackward_isBusiness_pos (H : Finset ℤ) (n : ℕ) (d : ℤ) (h : 0 < n) :
    isBusinessDay H (offsetBackward H n d) = true := by
  induction n generalizing d with
  | zero => omega
  | succ m ih =>
    cases m with
    | zero => exact prevBusinessDay_isBusiness H d
    | succ k => exact ih (prevBusinessDay H d) (by omega)

/-- Stepping forward to the next business day and then back returns to any
business-day start: the days strictly between are non-business in both views. -/
theorem prev_next_cancel (H : Finset ℤ) (d : ℤ) (h : isBusinessDay H d = true) :
    prevBusinessDay H (nextBusinessDay H d) = d := by
  apply prevBusinessDay_eq H (nextBusinessDay H d) d (lt_nextBusinessDay H d) h
  intro x hx
  rw [Finset.mem_Ioo] at hx
  exact nextBusinessDay_min H d x hx.1 hx.2

theorem roundTripDay (H : Finset ℤ) (n : ℕ) (d : ℤ) (h : isBusinessDay H d = true) :
    offsetBackward H n (offsetForward H n d) = d := by
  induction n generalizing d with
  | zero => rfl
  | succ m ih =>
    rw [offsetForward_succ_comm, offsetBackward,
      prev_next_cancel H _ (offsetForward_isBusiness H m d h)]
    exact ih d h

theorem dayOf_add_int (t : ℚ) (k : ℤ) : dayOf (t + 86400 * k) = dayOf t + k := by
  unfold dayOf
  rw [show (t + 86400 * k) / 86400 = t / 86400 + k by field_simp; ring, Int.floor_add_int]

/-- `TemporalGenerator.get_business_day_offset` on datetimes: the loop adds
whole days to the base timestamp, keeping the time of day. -/
def getBusinessDayOffset (H : Finset ℤ) (t : ℚ) (n : ℤ) : ℚ :=
  t + 86400 * ((businessDayOffset H (dayOf t) n : ℚ) - (dayOf t : ℚ))

/-- `TemporalGenerator.get_next_business_day` on datetimes. -/
def getNextBusinessDay (H : Finset ℤ) (t : ℚ) : ℚ :=
  t + 86400 * ((nextBusinessDay H (dayOf t) : ℚ) - (dayOf t : ℚ))

/-- `TemporalGenerator.get_previous_business_day` on datetimes. -/
def getPreviousBusinessDay (H : Finset ℤ) (t : ℚ) : ℚ :=
  t + 86400 * ((prevBusinessDay H (dayOf t) : ℚ) - (dayOf t : ℚ))

theorem dayOf_getBusinessDayOffset (H : Finset ℤ) (t : ℚ) (n : ℤ) :
    dayOf (getBusinessDayOffset H t n) = businessDayOffset H (dayOf t) n := by
  unfold getBusinessDayOffset
  rw [show t + 86400 * ((businessDayOffset H (dayOf t) n : ℚ) - (dayOf t : ℚ))
      = t + 86400 * ((businessDayOffset H (dayOf t) n - dayOf t : ℤ) : ℚ) by push_cast; ring,
    dayOf_add_int]
  omega

theorem dayOf_getNextBusinessDay (H : Finset ℤ) (t : ℚ) :
    dayOf (getNextBusinessDay H t) = nextBusinessDay H (dayOf t) := by
  unfold getNextBusinessDay
  rw [show t + 86400 * ((nextBusinessDay H (dayOf t) : ℚ) - (dayOf t : ℚ))
      = t + 86400 * ((nextBusinessDay H (dayOf t) - dayOf t : ℤ) : ℚ) by push_cast; ring,
    dayOf_add_int]
  omega

theorem dayOf_getPreviousBusinessDay (H : Finset ℤ) (t : ℚ) :
    dayOf (getPreviousBusinessDay H t) = prevBusinessDay H (dayOf t) := by
  unfold getPreviousBusinessDay
  rw [show t + 86400 * ((prevBusinessDay H (dayOf t) : ℚ) - (dayOf t : ℚ))
      = t + 86400 * ((prevBusinessDay H (dayOf t) - dayOf t : ℤ) : ℚ) by push_cast; ring,
    dayOf_add_int]
  omega

/-- C10: for nonzero offsets `get_business_day_offset` lands on a business day
even when the base is a weekend or holiday; offset 0 returns the base
unchanged; `get_next_business_day` and `get_previous_business_day` always
return business days. -/
theorem business_day_offset_lands_on_business_day (H : Finset ℤ) (t : ℚ) (n : ℤ)
    (hn : n ≠ 0) :
    isBusinessDay H (dayOf (getBusinessDayOffset H t n)) = true
    ∧ getBusinessDayOffset H t 0 = t
    ∧ isBusinessDay H (dayOf (getNextBusinessDay H t)) = true
    ∧ isBusinessDay H (dayOf (getPreviousBusinessDay H t)) = true := by
  refine ⟨?_, ?_, ?_, ?_⟩
  · rw [dayOf_getBusinessDayOffset]
    unfold businessDayOffset
    rw [if_neg hn]
    by_cases hpos : 0 < n
    · rw [if_pos hpos]
      exact offsetForward_isBusiness_pos H n.toNat (dayOf t) (by omega)
    · rw [if_neg hpos]
      exact offsetBackward_isBusiness_pos H (-n).toNat (dayOf t) (by omega)
  · unfold getBusinessDayOffset businessDayOffset
    rw [if_pos rfl]
    ring
  · rw [dayOf_getNextBusinessDay]; exact nextBusinessDay_isBusiness H (dayOf t)
  · rw [dayOf_getPreviousBusinessDay]; exact prevBusinessDay_isBusiness H (dayOf t)

/-- Witness for C10 at the empty holiday set, base 2026-01-03 (a Saturday)
and offset 1. -/
theorem business_day_offset_lands_on_business_day_witness :
    isBusinessDay ∅ (dayOf (getBusinessDayOffset ∅ (20456 * 86400) 1)) = true
    ∧ getBusinessDayOffset ∅ (20456 * 86400) 0 = 20456 * 86400
    ∧ isBusinessDay ∅ (dayOf (getNextBusinessDay ∅ (20456 * 86400))) = true
    ∧ isBusinessDay ∅ (dayOf (getPreviousBusinessDay ∅ (20456 * 86400))) = true :=
  business_day_offset_lands_on_business_day ∅ (20456 * 86400) 1 (by norm_num)

/-- C6 (amended): the business-day round trip
`offset(offset(d, n), -n) = d` holds whenever the base datetime itself falls
on a business day (for every holiday set and every `n ≥ 0`). -/
theorem business_day_offset_round_trip (H : Finset ℤ) (t : ℚ) (n : ℤ)
    (hb : isBusinessDay H (dayOf t) = true) (hn : 0 ≤ n) :
    getBusinessDayOffset H (getBusinessDayOffset H t n) (-n) = t := by
  by_cases h0 : n = 0
  · subst h0
    unfold getBusinessDayOffset businessDayOffset
    norm_num
  · have hpos : 0 < n := by omega
    have h1 : getBusinessDayOffset H t n
        = t + 86400 * ((offsetForward H n.toNat (dayOf t) : ℚ) - (dayOf t : ℚ)) := by
      unfold getBusinessDayOffset businessDayOffset
      rw [if_neg h0, if_pos hpos]
    have h2 : dayOf (getBusinessDayOffset H t n) = offsetForward H n.toNat (dayOf t) := by
      rw [dayOf_getBusinessDayOffset]
      unfold businessDayOffset
      rw [if_neg h0, if_pos hpos]
    have h3 : businessDayOffset H (dayOf (getBusinessDayOffset H t n)) (-n) = dayOf t := by
      rw [h2]
      unfold businessDayOffset
      rw [if_neg (by omega : ¬(-n = 0)), if_neg (by omega : ¬(0 < -n)),
        show (-(-n)).toNat = n.toNat by omega]
      exact roundTripDay H n.toNat (dayOf t) hb
    calc getBusinessDayOffset H (getBusinessDayOffset H t n) (-n)
        = getBusinessDayOffset H t n
          + 86400 * ((businessDayOffset H (dayOf (getBusinessDayOffset H t n)) (-n) : ℚ)
            - (dayOf (getBusinessDayOffset H t n) : ℚ)) := rfl
      _ = t := by rw [h3, h2, h1]; ring

/-- Witness for C6 (amended) at the empty holiday set, base 2026-01-02
(a Friday, hence a business day) and `n = 2`. -/
theorem business_day_offset_round_trip_witness :
    getBusinessDayOffset ∅ (getBusinessDayOffset ∅ ts20260102 2) (-2) = ts20260102 := by
  apply business_day_offset_round_trip ∅ ts20260102 2 ?_ (by norm_num)
  have hday : dayOf ts20260102 = 20455 := by unfold dayOf ts20260102; norm_num
  rw [hday]
  decide

theorem nextBusinessDay_sat20260103 : nextBusinessDay ∅ 20456 = 20458 := by
  apply nextBusinessDay_eq ∅ 20456 20458 (by norm_num) (by decide)
  intro x hx
  rw [Finset.mem_Ioo] at hx
  have hx7 : x = 20457 := by omega
  subst hx7
  decide

theorem prevBusinessDay_mon20260105 : prevBusinessDay ∅ 20458 = 20455 := by
  apply prevBusinessDay_eq ∅ 20458 20455 (by norm_num) (by decide)
  intro x hx
  rw [Finset.mem_Ioo] at hx
  have hx7 : x = 20456 ∨ x = 20457 := by omega
  rcases hx7 with hx7 | hx7 <;> subst hx7 <;> decide

/-- Counterexample to C6 as stated: starting from 2026-01-03, a Saturday (no
holiday anywhere, so certainly none on the boundary business day), one
business day forward lands on Monday 2026-01-05, and one business day back
from there lands on Friday 2026-01-02 — not the Saturday base. -/
theorem business_day_offset_round_trip_counterexample :
    getBusinessDayOffset ∅ (getBusinessDayOffset ∅ ((20456 : ℚ) * 86400) 1) (-1)
      ≠ (20456 : ℚ) * 86400 := by
  have hd0 : dayOf ((20456 : ℚ) * 86400) = 20456 := by unfold dayOf; norm_num
  have hbdo1 : businessDayOffset ∅ 20456 1 = 20458 := by
    unfold businessDayOffset
    rw [if_neg (by norm_num), if_pos (by norm_num)]
    simp [offsetForward, nextBusinessDay_sat20260103]
  have hbdo2 : businessDayOffset ∅ 20458 (-1) = 20455 := by
    unfold businessDayOffset
    rw [if_neg (by norm_num), if_neg (by norm_num)]
    simp [offsetBackward, prevBusinessDay_mon20260105]
  have g1 : getBusinessDayOffset ∅ ((20456 : ℚ) * 86400) 1
      = (20456 : ℚ) * 86400 + 86400 * 2 := by
    unfold getBusinessDayOffset
    rw [hd0, hbdo1]
    norm_num
  have hd1 : dayOf ((20456 : ℚ) * 86400 + 86400 * 2) = 20458 := by
    unfold dayOf; norm_num
  have g2 : getBusinessDayOffset ∅ ((20456 : ℚ) * 86400 + 86400 * 2) (-1)
      = (20456 : ℚ) * 86400 - 86400 := by
    unfold getBusinessDayOffset
    rw [hd1, hbdo2]
    norm_num
  rw [g1, g2]
  norm_num

/-! ### `TemporalGenerator.generate_task_lifecycle` and its helpers
(src/utils/temporal.py 363-583)

Every random library call of the source is modelled by an explicit input
holding the value it returned: `np.random.lognormal` outputs, the
`random.random()` uniform draws, and the hour/minute/second components chosen
by `get_random_time_in_work_hours` (whose hour weights are positive for every
hour of the day, so any `0..23` hour is a possible output). -/

/-- One row of `project_type_patterns` (only the fields the lifecycle uses). -/
structure ProjectPattern where
  completionAcceleration : ℚ
  weekendPauseFactor : ℚ

/-- Source `project_type_patterns` with its `.get(project_type, patterns['sprint'])`
default. -/
def projectTypePatterns (projectType : String) : ProjectPattern :=
  if projectType = "sprint" then ⟨13/10, 3/10⟩
  else if projectType = "bug_tracking" then ⟨11/10, 6/10⟩
  else if projectType = "feature_development" then ⟨12/10, 2/10⟩
  else if projectType = "campaign" then ⟨14/10, 7/10⟩
  else if projectType = "research" then ⟨1, 8/10⟩
  else ⟨13/10, 3/10⟩

/-- Source `dept_multipliers` of `_generate_completion_timestamp`. -/
def deptMultipliers (department : String) : ℚ :=
  if department = "engineering" then 12/10
  else if department = "product" then 1
  else if department = "marketing" then 8/10
  else if department = "sales" then 6/10
  else if department = "operations" then 11/10
  else 1

/-- Source `dept_adjustments` of `_generate_started_timestamp`. -/
def deptStartAdjustments (department : String) : ℚ :=
  if department = "engineering" then 1
  else if department = "product" then 8/10
  else if department = "marketing" then 12/10
  else if department = "sales" then 7/10
  else if department = "operations" then 11/10
  else 1

/-- Source `project_adjustments` of `_generate_started_timestamp` (note
`feature_development` is absent there, so it falls to the `.get` default 1.0). -/
def projectStartAdjustments (projectType : String) : ℚ :=
  if projectType = "sprint" then 6/10
  else if projectType = "bug_tracking" then 4/10
  else if projectType = "campaign" then 15/10
  else if projectType = "research" then 2
  else 1

/-- Random outputs consumed by `_generate_completion_timestamp`: the
log-normal duration draw, the `random.random()` interpolation draw, and the
hour/minute/second chosen when snapping to business hours. -/
structure CompletionDraws where
  baseHours : ℚ
  interp : ℚ
  hour : ℤ
  minute : ℤ
  second : ℤ

/-- Random outputs consumed by `_generate_started_timestamp`. -/
structure StartDraws where
  hoursUntilStart : ℚ
  minute : ℤ
  second : ℤ

/-- `TemporalGenerator._generate_completion_timestamp`: clamp the log-normal
duration draw to [1h, 336h], multiply by the department multiplier, divide by
the deadline acceleration, re-anchor before the due date by interpolation when
overshooting it, then snap to business hours (weighted random time on a
business day, hour clamped into [9, 20] on a weekend). -/
def generateCompletionTimestamp (H : Finset ℤ) (createdAt : ℚ) (dueDate : Option ℚ)
    (department projectType : String) (r : CompletionDraws) : ℚ :=
  let pattern := projectTypePatterns projectType
  let baseHours := max 1 (min r.baseHours 336)
  let durationHours := baseHours * deptMultipliers department
  let durationHours :=
    match dueDate with
    | none => durationHours
    | some due =>
      let daysUntilDue := daysBetween due createdAt
      if 0 < daysUntilDue then
        durationHours
          / (1 + (pattern.completionAcceleration - 1) * (1 - min 1 ((daysUntilDue : ℚ) / 30)))
      else durationHours
  let ts := createdAt + durationHours * 3600
  let ts :=
    match dueDate with
    | none => ts
    | some due =>
      if due < ts then
        let minCompletion := max (createdAt + 3600) (due - 3 * 86400)
        if minCompletion < due then minCompletion + (due - minCompletion) * r.interp else ts
      else ts
  if isBusinessDay H (dayOf ts) then setTime ts r.hour r.minute r.second
  else setTime ts (min (max (hourOf ts) 9) 20) r.minute r.second

/-- `TemporalGenerator._generate_started_timestamp`: clamp the log-normal
hours-until-start draw to [0.5h, 168h], scale by department and project
factors, clamp the result into `[created_at + 5min, completed_at - 30min]`
(upper bound applied first, as in the source), then on a business day replace
the hour by its clamp into work hours [9, 17] with fresh minute/second draws. -/
def generateStartedTimestamp (H : Finset ℤ) (createdAt completedAt : ℚ)
    (department projectType : String) (r : StartDraws) : ℚ :=
  let hours := max (1/2) (min r.hoursUntilStart 168)
  let hours := hours * (deptStartAdjustments department * projectStartAdjustments projectType)
  let start := createdAt + hours * 3600
  let maxStart := completedAt - 30 * 60
  let start := if maxStart < start then maxStart else start
  let minStart := createdAt + 5 * 60
  let start := if start < minStart then minStart else start
  if isBusinessDay H (dayOf start) then
    setTime start (min (max (hourOf start) 9) (18 - 1)) r.minute r.second
  else start

/-- The dictionary returned by `generate_task_lifecycle`. -/
structure LifecycleRecord where
  createdAt : ℚ
  startedAt : Option ℚ
  completedAt : Option ℚ
  cycleTimeDays : Option ℚ
  leadTimeDays : Option ℚ

/-- Random outputs consumed by one `generate_task_lifecycle` call. -/
structure LifecycleDraws where
  uComplete : ℚ
  completion : CompletionDraws
  start : StartDraws

/-- `TemporalGenerator.generate_task_lifecycle`: decide completion by comparing
a uniform draw with `_get_completion_probability`; on completion generate the
completion timestamp, then the started timestamp, then the cycle/lead-time
metrics in days (`total_seconds() / 86400`). -/
def generateTaskLifecycle (H : Finset ℤ) (createdAt : ℚ) (dueDate : Option ℚ)
    (department projectType : String) (r : LifecycleDraws) : LifecycleRecord :=
  if r.uComplete < getCompletionProbability department projectType createdAt dueDate then
    let completedAt := generateCompletionTimestamp H createdAt dueDate department projectType
      r.completion
    let startedAt := generateStartedTimestamp H createdAt completedAt department projectType
      r.start
    { createdAt := createdAt
      startedAt := some startedAt
      completedAt := some completedAt
      cycleTimeDays := some ((completedAt - startedAt) / 86400)
      leadTimeDays := some ((completedAt - createdAt) / 86400) }
  else
    { createdAt := createdAt
      startedAt := none
      completedAt := none
      cycleTimeDays := none
      leadTimeDays := none }

/-- C1 (amended): whenever the generated record has `completed_at` set it also
has `started_at` set, `cycle_time_days = (completed_at - started_at)` in days
and `lead_time_days = (completed_at - created_at)` in days, and `created_at`
is returned unchanged (stated as Option-level equations, which are trivial in
the not-completed branch). -/
theorem lifecycle_metrics (H : Finset ℤ) (createdAt : ℚ) (dueDate : Option ℚ)
    (department projectType : String) (r : LifecycleDraws) :
    (generateTaskLifecycle H createdAt dueDate department projectType r).createdAt = createdAt
    ∧ (generateTaskLifecycle H createdAt dueDate department projectType r).completedAt.isSome
        = (generateTaskLifecycle H createdAt dueDate department projectType r).startedAt.isSome
    ∧ (generateTaskLifecycle H createdAt dueDate department projectType r).cycleTimeDays
        = (generateTaskLifecycle H createdAt dueDate department projectType r).completedAt.bind
            (fun comp =>
              (generateTaskLifecycle H createdAt dueDate department projectType r).startedAt.map
                (fun st => (comp - st) / 86400))
    ∧ (generateTaskLifecycle H createdAt dueDate department projectType r).leadTimeDays
        = (generateTaskLifecycle H createdAt dueDate department projectType r).completedAt.map
            (fun comp => (comp - createdAt) / 86400) := by
  unfold generateTaskLifecycle
  split_ifs <;> simp

/-- Creation timestamp of the C1 scenario: Friday 2026-01-02 22:00:00. -/
def c1CreatedAt : ℚ := 20455 * 86400 + 22 * 3600

/-- Random outputs of the C1 scenario: the completion decision draw is 0, the
duration draw is 1 hour, and the business-hours snap draws hour 0, minute 30
(both possible outputs: every hour weight of `task_completion` is positive). -/
def c1Draws : LifecycleDraws :=
  { uComplete := 0
    completion := { baseHours := 1, interp := 0, hour := 0, minute := 30, second := 0 }
    start := { hoursUntilStart := 1, minute := 0, second := 0 } }

theorem c1_prob_eval :
    getCompletionProbability "engineering" "sprint" c1CreatedAt none = 68/100 := by
  have hw : weekdayOf c1CreatedAt = 4 := by
    unfold weekdayOf weekdayOfDay dayOf c1CreatedAt
    norm_num
  simp only [getCompletionProbability, hw]
  norm_num [baseRates, projectAdjustments]

theorem c1_completion_eval :
    generateCompletionTimestamp ∅ c1CreatedAt none "engineering" "sprint"
      { baseHours := 1, interp := 0, hour := 0, minute := 30, second := 0 }
      = 20455 * 86400 + 1800 := by
  have hts : c1CreatedAt + max 1 (min (1:ℚ) 336) * deptMultipliers "engineering" * 3600
      = 20455 * 86400 + 83520 := by
    norm_num [c1CreatedAt, deptMultipliers]
  have hday : dayOf ((20455 * 86400 + 83520 : ℚ)) = 20455 := by
    unfold dayOf; norm_num
  have hday' : dayOf ((1767395520 : ℚ)) = 20455 := by
    unfold dayOf; norm_num
  simp only [generateCompletionTimestamp, hts, hday]
  norm_num [isBusinessDay, weekdayOfDay, setTime, hday, hday']

theorem c1_started_eval :
    generateStartedTimestamp ∅ c1CreatedAt (20455 * 86400 + 1800) "engineering" "sprint"
      { hoursUntilStart := 1, minute := 0, second := 0 }
      = 20455 * 86400 + 61200 := by
  have h1 : max (1/2 : ℚ) (min 1 168)
      * (deptStartAdjustments "engineering" * projectStartAdjustments "sprint") = 3/5 := by
    norm_num [deptStartAdjustments, projectStartAdjustments]
  simp only [generateStartedTimestamp, h1]
  have h2 : ¬((20455 * 86400 + 1800 : ℚ) - 30 * 60 < c1CreatedAt + 3/5 * 3600) = False := by
    norm_num [c1CreatedAt]
  have hlt1 : (20455 * 86400 + 1800 : ℚ) - 30 * 60 < c1CreatedAt + 3/5 * 3600 := by
    norm_num [c1CreatedAt]
  rw [if_pos hlt1]
  have hlt2 : (20455 * 86400 + 1800 : ℚ) - 30 * 60 < c1CreatedAt + 5 * 60 := by
    norm_num [c1CreatedAt]
  rw [if_pos hlt2]
  have hday : dayOf (c1CreatedAt + 5 * 60) = 20455 := by
    unfold dayOf c1CreatedAt; norm_num
  have hhour : hourOf (c1CreatedAt + 5 * 60) = 22 := by
    unfold hourOf secOfDay
    rw [hday]
    norm_num [c1CreatedAt]
  rw [show isBusinessDay ∅ (dayOf (c1CreatedAt + 5 * 60)) = true by rw [hday]; decide]
  rw [if_pos rfl]
  rw [setTime, hday, hhour]
  norm_num

/-- Counterexample to C1 as stated: at creation Friday 2026-01-02 22:00 with
no due date, a 1-hour duration draw puts the raw completion at 23:12 on the
same (business) day, and the business-hours snap then redraws the time of day
to 00:30 — before the creation time. `started_at` is likewise snapped to
17:00, also before creation, so `created_at ≤ started_at ≤ completed_at`
fails while `completed_at` is set. -/
theorem lifecycle_ordering_counterexample :
    (generateTaskLifecycle ∅ c1CreatedAt none "engineering" "sprint" c1Draws).completedAt
      = some (20455 * 86400 + 1800)
    ∧ (generateTaskLifecycle ∅ c1CreatedAt none "engineering" "sprint" c1Draws).startedAt
      = some (20455 * 86400 + 61200)
    ∧ (20455 * 86400 + 1800 : ℚ) < c1CreatedAt
    ∧ (20455 * 86400 + 61200 : ℚ) < c1CreatedAt := by
  have hif : (c1Draws.uComplete
      < getCompletionProbability "engineering" "sprint" c1CreatedAt none) := by
    rw [c1_prob_eval]
    norm_num [c1Draws]
  unfold generateTaskLifecycle
  rw [if_pos hif]
  have hc : c1Draws.completion
      = { baseHours := 1, interp := 0, hour := 0, minute := 30, second := 0 } := rfl
  have hs : c1Draws.start = { hoursUntilStart := 1, minute := 0, second := 0 } := rfl
  simp only [hc, hs, c1_completion_eval, c1_started_eval]
  refine ⟨trivial, trivial, ?_, ?_⟩ <;> norm_num [c1CreatedAt]

/-- Witness for C1 (amended) at the concrete completed scenario of 2026-01-02:
the record has `completed_at` set and the metric equations hold there. -/
theorem lifecycle_metrics_witness :
    (generateTaskLifecycle ∅ c1CreatedAt none "engineering" "sprint" c1Draws).cycleTimeDays
        = (generateTaskLifecycle ∅ c1CreatedAt none "engineering" "sprint"
            c1Draws).completedAt.bind
            (fun comp =>
              (generateTaskLifecycle ∅ c1CreatedAt none "engineering" "sprint"
                c1Draws).startedAt.map (fun st => (comp - st) / 86400))
    ∧ (generateTaskLifecycle ∅ c1CreatedAt none "engineering" "sprint" c1Draws).leadTimeDays
        = (generateTaskLifecycle ∅ c1CreatedAt none "engineering" "sprint"
            c1Draws).completedAt.map (fun comp => (comp - c1CreatedAt) / 86400) :=
  ⟨(lifecycle_metrics ∅ c1CreatedAt none "engineering" "sprint" c1Draws).2.2.1,
   (lifecycle_metrics ∅ c1CreatedAt none "engineering" "sprint" c1Draws).2.2.2⟩

/-! ### `CustomFieldGenerator` number sampling and distribution resolution
(src/generators/custom_fields.py 254-445)

A number-distribution dictionary can carry the keys `distribution`, `min`,
`max`, `mean`, `std`; each is modelled as an `Option` since the source reads
them with per-branch `.get` defaults. A `distribution` value is either one of
the strings `uniform` / `normal` / `lognormal`, a weight list (dispatched by
`isinstance(dist_type, list)`), or an unrecognized value that falls through
every branch. -/

/-- The value stored under the `distribution` key. -/
inductive DistTag where
  | uniform
  | normal
  | lognormal
  | discrete (weights : List ℚ)
  | unknown
deriving DecidableEq

/-- A number-field distribution dictionary. -/
structure NumberDist where
  distribution : Option DistTag
  mn : Option ℚ
  mx : Option ℚ
  mean : Option ℚ
  std : Option ℚ
deriving DecidableEq

/-- Python `round` (banker's rounding, half to even) on an exact rational. -/
def pyRound (x : ℚ) : ℤ :=
  if Int.fract x < 1/2 then ⌊x⌋
  else if 1/2 < Int.fract x then ⌊x⌋ + 1
  else if 2 ∣ ⌊x⌋ then ⌊x⌋ else ⌊x⌋ + 1

/-- Python `int(round(v, -1))`. -/
def roundTens (v : ℚ) : ℤ := 10 * pyRound (v / 10)

/-- Python `int(round(v, -2))`. -/
def roundHundreds (v : ℚ) : ℤ := 100 * pyRound (v / 100)

/-- Python `round(v, 1)`. -/
def roundTenth (v : ℚ) : ℚ := (pyRound (10 * v) : ℚ) / 10

/-- The rounding applied by the `normal` branch after clamping: hundreds when
`max_val > 1000`, tens when `max_val > 100`, else one decimal digit. -/
def normalRound (mxVal v : ℚ) : ℚ :=
  if 1000 < mxVal then (roundHundreds v : ℚ)
  else if 100 < mxVal then (roundTens v : ℚ)
  else roundTenth v

/-- Random outputs consumed by the number branch of `_generate_field_value`:
the `random.uniform(a, b)` draw is `a + (b-a)·u` for `u` uniform on [0,1], the
`np.random` draws are passed through, `random.choices` over the discrete value
list is modelled by an index reduced mod the list length (it always returns an
element of the list), and `random.randint(1, 100)` returns its output. -/
structure NumberDraws where
  u : ℚ
  normalDraw : ℚ
  lognormalDraw : ℚ
  choiceIdx : ℕ
  randint : ℤ

/-- The discrete value list `list(range(min, max + 1))`. -/
def discreteValues (mn mx : ℚ) : List ℚ :=
  (List.range ((⌊mx⌋ - ⌊mn⌋).toNat + 1)).map (fun (k : ℕ) => mn + (k : ℚ))

/-- Number branch of `CustomFieldGenerator._generate_field_value`
(src/generators/custom_fields.py 370-413), for a dictionary-valued
distribution: uniform draw over [min,max]; normal draw clamped to [min,max]
then rounded by magnitude; log-normal draw clamped then rounded to an integer;
discrete weight list drawn over `range(min, max+1)`; any other kind falls
through to `random.randint(1, 100)`. -/
def generateNumberValue (d : NumberDist) (r : NumberDraws) : ℚ :=
  match d.distribution.getD DistTag.uniform with
  | DistTag.uniform =>
      let mnVal := d.mn.getD 1
      let mxVal := d.mx.getD 100
      mnVal + (mxVal - mnVal) * r.u
  | DistTag.normal =>
      let mnVal := d.mn.getD 0
      let mxVal := d.mx.getD 100
      normalRound mxVal (max mnVal (min mxVal r.normalDraw))
  | DistTag.lognormal =>
      let mnVal := d.mn.getD 1
      let mxVal := d.mx.getD 1000
      (pyRound (max mnVal (min mxVal r.lognormalDraw)) : ℚ)
  | DistTag.discrete _ =>
      let mnVal := d.mn.getD 1
      let mxVal := d.mx.getD 10
      let values := discreteValues mnVal mxVal
      values.getD (r.choiceIdx % values.length) mnVal
  | DistTag.unknown => (r.randint : ℚ)

/-- The five custom-field value kinds dispatched by `_generate_field_value`. -/
inductive FieldType where
  | enum
  | number
  | date
  | boolean
  | text
deriving DecidableEq

/-- A value of the `field_value_patterns[field_type][department]` tables:
enum option lists, number-distribution dictionaries, date offset-day pairs
and boolean weight pairs (the text tables are plain string lists, handled by
the text branch directly). -/
inductive PatternVal where
  | enumOpts (options : List String)
  | numDist (d : NumberDist)
  | dateOffsets (lo hi : ℤ)
  | boolW (pTrue pFalse : ℚ)
  | textOpts (options : List String)
deriving DecidableEq

/-- Python `if field_name in dept_patterns: return dept_patterns[field_name]`:
exact-key lookup in the (insertion-ordered, unique-keyed) dictionary. -/
def lookupExact (tbl : List (String × PatternVal)) (name : String) : Option PatternVal :=
  (tbl.find? (fun e => e.1 == name)).map (fun e => e.2)

/-- Python `for category, pattern in dept_patterns.items(): if category in
field_name: return pattern`: first entry whose key is a substring of the
field name. -/
def lookupSubstring (tbl : List (String × PatternVal)) (name : String) : Option PatternVal :=
  (tbl.find? (fun e => decide (e.1.data <:+: name.data))).map (fun e => e.2)

/-- The `number` fallback dictionary of `_get_field_value_distribution`. -/
def uniformFallbackDist : NumberDist :=
  { distribution := some DistTag.uniform
    mn := some 1
    mx := some 100
    mean := none
    std := none }

/-- `CustomFieldGenerator._get_field_value_distribution`
(src/generators/custom_fields.py 254-329): exact field-name entry, then first
substring entry, then a hardcoded per-type default; the text branch returns
the department's string list (`dept_patterns or [...]`, so the default kicks
in exactly when the department list is missing or empty). -/
def resolveFieldDistribution (ft : FieldType) (tbl : List (String × PatternVal))
    (textPatterns : List String) (name : String) : Option PatternVal :=
  match ft with
  | FieldType.enum =>
      ((lookupExact tbl name).orElse (fun _ => lookupSubstring tbl name)).orElse
        (fun _ => some (PatternVal.enumOpts ["High", "Medium", "Low"]))
  | FieldType.number =>
      ((lookupExact tbl name).orElse (fun _ => lookupSubstring tbl name)).orElse
        (fun _ => some (PatternVal.numDist uniformFallbackDist))
  | FieldType.date =>
      ((lookupExact tbl name).orElse (fun _ => lookupSubstring tbl name)).orElse
        (fun _ => some (PatternVal.dateOffsets 0 30))
  | FieldType.boolean =>
      ((lookupExact tbl name).orElse (fun _ => lookupSubstring tbl name)).orElse
        (fun _ => some (PatternVal.boolW (1/2) (1/2)))
  | FieldType.text =>
      some (PatternVal.textOpts
        (if textPatterns.isEmpty then ["value1", "value2", "value3"] else textPatterns))

/-- The `field_value_patterns['number']` registry
(src/generators/custom_fields.py 88-114), with its `.get(department, {})`
default for unknown departments. -/
def numberPatterns (department : String) : List (String × PatternVal) :=
  if department = "engineering" then
    [("story_points", PatternVal.numDist
        { distribution := some (DistTag.discrete [1/10, 1/5, 3/10, 1/5, 1/10, 1/20, 1/20])
          mn := some 1, mx := some 13, mean := none, std := none }),
     ("priority", PatternVal.numDist
        { distribution := some (DistTag.discrete [1/20, 3/20, 2/5, 3/10, 1/10])
          mn := some 1, mx := some 5, mean := none, std := none }),
     ("risk_level", PatternVal.numDist
        { distribution := some (DistTag.discrete
            [1/10, 1/10, 1/5, 1/5, 3/20, 1/10, 1/20, 1/20, 3/100, 1/50])
          mn := some 1, mx := some 10, mean := none, std := none })]
  else if department = "product" then
    [("ice_score", PatternVal.numDist
        { distribution := some DistTag.normal
          mn := some 1, mx := some 100, mean := some 50, std := some 20 }),
     ("effort_level", PatternVal.numDist
        { distribution := some (DistTag.discrete
            [1/20, 1/10, 3/20, 1/5, 1/5, 3/20, 1/10, 3/100, 1/100, 1/100])
          mn := some 1, mx := some 10, mean := none, std := none }),
     ("impact_score", PatternVal.numDist
        { distribution := some (DistTag.discrete
            [1/50, 3/100, 1/20, 1/10, 1/5, 3/10, 1/5, 7/100, 1/50, 1/100])
          mn := some 1, mx := some 10, mean := none, std := none })]
  else if department = "marketing" then
    [("budget_usd", PatternVal.numDist
        { distribution := some DistTag.lognormal
          mn := some 100, mx := some 50000, mean := some 2500, std := some (3/2) }),
     ("target_ctr", PatternVal.numDist
        { distribution := some DistTag.normal
          mn := some (1/10), mx := some 10, mean := some (5/2), std := some 1 }),
     ("creative_assets", PatternVal.numDist
        { distribution := some (DistTag.discrete
            [1/10, 1/5, 3/10, 1/5, 1/10, 1/20, 3/100, 1/100, 1/200, 1/200])
          mn := some 1, mx := some 20, mean := none, std := none })]
  else if department = "sales" then
    [("deal_size", PatternVal.numDist
        { distribution := some DistTag.lognormal
          mn := some 1000, mx := some 1000000, mean := some 50000, std := some 2 }),
     ("probability", PatternVal.numDist
        { distribution := some (DistTag.discrete
            [1/20, 1/20, 1/10, 3/20, 1/5, 1/5, 3/20, 1/20, 3/100, 1/50])
          mn := some 1, mx := some 100, mean := none, std := none }),
     ("timeline_weeks", PatternVal.numDist
        { distribution := some DistTag.normal
          mn := some 1, mx := some 26, mean := some 8, std := some 4 })]
  else if department = "operations" then
    [("budget_impact", PatternVal.numDist
        { distribution := some DistTag.normal
          mn := some (-10000), mx := some 10000, mean := some 0, std := some 3000 }),
     ("risk_score", PatternVal.numDist
        { distribution := some (DistTag.discrete
            [1/20, 1/20, 1/10, 3/20, 1/5, 1/5, 3/20, 7/100, 1/50, 1/100])
          mn := some 1, mx := some 10, mean := none, std := none }),
     ("resource_hours", PatternVal.numDist
        { distribution := some DistTag.normal
          mn := some 1, mx := some 160, mean := some 40, std := some 30 })]
  else []

theorem pyRound_bounds (x : ℚ) : x - 1/2 ≤ (pyRound x : ℚ) ∧ (pyRound x : ℚ) ≤ x + 1/2 := by
  have hf := Int.fract_nonneg x
  have hf1 := Int.fract_lt_one x
  have hfe : (⌊x⌋ : ℚ) = x - Int.fract x := by rw [Int.fract]; ring
  unfold pyRound
  split_ifs <;> push_cast <;> rw [hfe] <;> constructor <;> linarith

theorem pyRound_mem_Icc (a b : ℤ) (x : ℚ) (h1 : (a : ℚ) ≤ x) (h2 : x ≤ (b : ℚ)) :
    a ≤ pyRound x ∧ pyRound x ≤ b := by
  obtain ⟨hlo, hhi⟩ := pyRound_bounds x
  constructor
  · have h4 : ((a - 1 : ℤ) : ℚ) < (pyRound x : ℚ) := by push_cast; linarith
    have h5 : a - 1 < pyRound x := by exact_mod_cast h4
    omega
  · have h4 : (pyRound x : ℚ) < ((b + 1 : ℤ) : ℚ) := by push_cast; linarith
    have h5 : pyRound x < b + 1 := by exact_mod_cast h4
    omega

/-- C2 (amended): the `normal` sampler performs no retries and never falls
back to the configured mean: its single draw is clamped into [min,max] and
rounded, the result does not depend on the configured mean or std at all
(given the same draw), and a draw at or below `min` yields the rounded `min`
boundary — so a BoundedNormal spec whose window excludes the mean returns the
clamped boundary, not the mean. -/
theorem normal_sampler_clamps_single_draw (mean1 std1 mean2 std2 mn mx : ℚ)
    (r : NumberDraws) (hle : mn ≤ mx) (hdraw : r.normalDraw ≤ mn) :
    generateNumberValue
        { distribution := some DistTag.normal, mn := some mn, mx := some mx
          mean := some mean1, std := some std1 } r
      = generateNumberValue
        { distribution := some DistTag.normal, mn := some mn, mx := some mx
          mean := some mean2, std := some std2 } r
    ∧ generateNumberValue
        { distribution := some DistTag.normal, mn := some mn, mx := some mx
          mean := some mean1, std := some std1 } r
      = normalRound mx mn := by
  refine ⟨rfl, ?_⟩
  show normalRound (Option.getD (some mx) 100) (max (Option.getD (some mn) 0)
    (min (Option.getD (some mx) 100) r.normalDraw)) = normalRound mx mn
  rw [Option.getD_some, Option.getD_some, min_eq_right (le_trans hdraw hle),
    max_eq_left hdraw]

/-- Distribution of the C2 scenario: a BoundedNormal whose [100, 200] window
excludes the mean 50 by 50 standard deviations (std 1). -/
def c2Dist : NumberDist :=
  { distribution := some DistTag.normal
    mn := some 100, mx := some 200, mean := some 50, std := some 1 }

/-- Draws of the C2 scenario: the normal draw comes out at the mean, 50. -/
def c2Draws : NumberDraws :=
  { u := 0, normalDraw := 50, lognormalDraw := 0, choiceIdx := 0, randint := 1 }

/-- Counterexample to C2 as stated: for the 6σ-excluded-mean BoundedNormal
spec, a draw of 50 (the mean itself, hence far below `min`) is clamped and the
sampler returns the boundary 100 = `min`, not the configured mean 50 — there
is no retry loop and no mean fallback in `_generate_field_value`. -/
theorem normal_sampler_mean_fallback_counterexample :
    generateNumberValue c2Dist c2Draws = 100
    ∧ c2Dist.mean = some 50
    ∧ (100 : ℚ) ≠ 50 := by
  refine ⟨?_, rfl, by norm_num⟩
  show normalRound 200 (max (100:ℚ) (min 200 50)) = 100
  rw [min_eq_right (by norm_num : (50:ℚ) ≤ 200), max_eq_left (by norm_num : (50:ℚ) ≤ 100)]
  unfold normalRound roundTens pyRound
  norm_num [Int.fract]

/-- Witness for C2 (amended) at the concrete 6σ scenario. -/
theorem normal_sampler_clamps_single_draw_witness :
    generateNumberValue
        { distribution := some DistTag.normal, mn := some 100, mx := some 200
          mean := some 50, std := some 1 } c2Draws
      = generateNumberValue
        { distribution := some DistTag.normal, mn := some 100, mx := some 200
          mean := some 0, std := some 7 } c2Draws
    ∧ generateNumberValue
        { distribution := some DistTag.normal, mn := some 100, mx := some 200
          mean := some 50, std := some 1 } c2Draws
      = normalRound 200 100 :=
  normal_sampler_clamps_single_draw 50 1 0 7 100 200 c2Draws (by norm_num)
    (by norm_num [c2Draws])

theorem mem_discreteValues_bounds (a b : ℤ) (x : ℚ)
    (hle : (a : ℚ) ≤ (b : ℚ)) (hx : x ∈ discreteValues (a : ℚ) (b : ℚ)) :
    (a : ℚ) ≤ x ∧ x ≤ (b : ℚ) := by
  unfold discreteValues at hx
  obtain ⟨k, hk, hfk⟩ := List.mem_map.mp hx
  rw [List.mem_range, Int.floor_intCast, Int.floor_intCast] at hk
  have hab : a ≤ b := by exact_mod_cast hle
  have hk2 : (k : ℤ) ≤ b - a := by omega
  have hk3 : (k : ℚ) ≤ (b : ℚ) - (a : ℚ) := by exact_mod_cast hk2
  have h0 : (0 : ℚ) ≤ (k : ℚ) := by positivity
  subst hfk
  constructor <;> linarith

theorem discreteValues_ne_nil (mn mx : ℚ) : discreteValues mn mx ≠ [] := by
  unfold discreteValues
  simp only [ne_eq, List.map_eq_nil_iff, List.range_eq_nil]
  omega

/-- C3 (amended): the number-sampler output lies within the resolved [min,max]
for the uniform kind (also when the `distribution` key is absent, which the
source defaults to uniform), for the log-normal kind with integer bounds, and
for the discrete-weight kind with integer bounds; the normal kind first clamps
its draw into [min,max] but the subsequent magnitude rounding can leave the
bounds, and an unrecognized kind ignores the bounds entirely, returning the
`random.randint(1, 100)` output. -/
theorem number_value_bounds (d : NumberDist) (r : NumberDraws) (mn mx : ℚ)
    (hmn : d.mn = some mn) (hmx : d.mx = some mx) (hle : mn ≤ mx) :
    ((d.distribution = some DistTag.uniform ∨ d.distribution = none) →
      0 ≤ r.u → r.u ≤ 1 →
      mn ≤ generateNumberValue d r ∧ generateNumberValue d r ≤ mx)
    ∧ (d.distribution = some DistTag.lognormal →
      ∀ a b : ℤ, mn = (a : ℚ) → mx = (b : ℚ) →
      mn ≤ generateNumberValue d r ∧ generateNumberValue d r ≤ mx)
    ∧ (∀ ws : List ℚ, d.distribution = some (DistTag.discrete ws) →
      ∀ a b : ℤ, mn = (a : ℚ) → mx = (b : ℚ) →
      mn ≤ generateNumberValue d r ∧ generateNumberValue d r ≤ mx)
    ∧ (d.distribution = some DistTag.unknown →
      generateNumberValue d r = (r.randint : ℚ)) := by
  refine ⟨?_, ?_, ?_, ?_⟩
  · rintro (hd | hd) hu0 hu1 <;>
    · unfold generateNumberValue
      rw [hd]
      simp only [Option.getD_some, Option.getD_none, hmn, hmx]
      constructor
      · nlinarith
      · nlinarith
  · intro hd a b ha hb
    unfold generateNumberValue
    rw [hd]
    simp only [Option.getD_some, hmn, hmx]
    have hmem : mn ≤ max mn (min mx r.lognormalDraw) ∧ max mn (min mx r.lognormalDraw) ≤ mx :=
      ⟨le_max_left _ _, max_le hle (min_le_left _ _)⟩
    subst ha hb
    obtain ⟨h1, h2⟩ := pyRound_mem_Icc a b _ hmem.1 hmem.2
    exact ⟨by exact_mod_cast h1, by exact_mod_cast h2⟩
  · intro ws hd a b ha hb
    unfold generateNumberValue
    rw [hd]
    simp only [Option.getD_some, hmn, hmx]
    set values := discreteValues mn mx with hv
    have hlen : 0 < values.length :=
      List.length_pos.2 (by rw [hv]; exact discreteValues_ne_nil mn mx)
    have hidx : r.choiceIdx % values.length < values.length := Nat.mod_lt _ hlen
    have hmem : values.getD (r.choiceIdx % values.length) mn ∈ values := by
      rw [List.getD_eq_get _ _ hidx]
      exact List.get_mem _ _ _
    subst ha hb
    exact mem_discreteValues_bounds a b _ hle hmem
  · intro hd
    unfold generateNumberValue
    rw [hd]
    rfl

/-- Draws of the C3 witness scenario: a uniform draw of u = 1/2. -/
def c3WitnessDraws : NumberDraws :=
  { u := 1/2, normalDraw := 0, lognormalDraw := 0, choiceIdx := 0, randint := 1 }

/-- Witness for C3 (amended): the uniform fallback distribution with a
mid-range draw stays within its [1, 100] bounds. -/
theorem number_value_bounds_witness :
    (1 : ℚ) ≤ generateNumberValue uniformFallbackDist c3WitnessDraws
    ∧ generateNumberValue uniformFallbackDist c3WitnessDraws ≤ 100 :=
  (number_value_bounds uniformFallbackDist c3WitnessDraws 1 100 rfl rfl
    (by norm_num)).1 (Or.inl rfl) (by norm_num [c3WitnessDraws])
    (by norm_num [c3WitnessDraws])

/-- The `resource_hours` distribution of the operations number registry. -/
def resourceHoursDist : NumberDist :=
  { distribution := some DistTag.normal
    mn := some 1, mx := some 160, mean := some 40, std := some 30 }

/-- Draws of the C3 counterexample: the normal draw comes out at 1 (inside
the bounds, so even the clamp is a no-op). -/
def c3Draws : NumberDraws :=
  { u := 0, normalDraw := 1, lognormalDraw := 0, choiceIdx := 0, randint := 1 }

/-- Counterexample to C3 as stated: resolving the registry's own
`operations` / `resource_hours` field (min 1, max 160, normal) and sampling
with a draw of 1 rounds `int(round(1.0, -1))` to 0, below the minimum bound
1 — the bounds invariant fails after the magnitude rounding. -/
theorem number_value_bounds_counterexample :
    lookupExact (numberPatterns "operations") "resource_hours"
      = some (PatternVal.numDist resourceHoursDist)
    ∧ generateNumberValue resourceHoursDist c3Draws = 0
    ∧ ¬((1 : ℚ) ≤ generateNumberValue resourceHoursDist c3Draws) := by
  have heval : generateNumberValue resourceHoursDist c3Draws = 0 := by
    show normalRound 160 (max (1:ℚ) (min 160 1)) = 0
    rw [min_eq_right (by norm_num : (1:ℚ) ≤ 160), max_eq_left (le_refl (1:ℚ))]
    unfold normalRound roundTens pyRound
    norm_num [Int.fract]
  refine ⟨by decide, heval, by rw [heval]; norm_num⟩

/-- C4: field-distribution resolution tries the exact field-name entry first
(so with both an exact `bug_priority` entry and a substring `priority` entry
present, `bug_priority` resolves to the exact-match pattern), falls back to
the first entry whose category token is a substring of the field name, then to
the per-field-type default, and never fails: for every department table
(including the empty table of an unknown department) and every field type a
distribution is returned. -/
theorem field_distribution_resolution :
    (∀ (ft : FieldType) (tbl : List (String × PatternVal)) (texts : List String)
        (name : String) (p : PatternVal), ft ≠ FieldType.text →
      lookupExact tbl name = some p →
      resolveFieldDistribution ft tbl texts name = some p)
    ∧ (∀ (ft : FieldType) (tbl : List (String × PatternVal)) (texts : List String)
        (name : String) (p : PatternVal), ft ≠ FieldType.text →
      lookupExact tbl name = none → lookupSubstring tbl name = some p →
      resolveFieldDistribution ft tbl texts name = some p)
    ∧ (∀ (ft : FieldType) (tbl : List (String × PatternVal)) (texts : List String)
        (name : String),
      (resolveFieldDistribution ft tbl texts name).isSome = true) := by
  refine ⟨?_, ?_, ?_⟩
  · intro ft tbl texts name p hft hx
    cases ft <;> simp [resolveFieldDistribution, hx, Option.orElse] <;> exact absurd rfl hft
  · intro ft tbl texts name p hft hx hs
    cases ft <;> simp [resolveFieldDistribution, hx, hs, Option.orElse] <;> exact absurd rfl hft
  · intro ft tbl texts name
    cases ft <;>
      simp only [resolveFieldDistribution] <;>
      cases hx : lookupExact tbl name <;>
      cases hs : lookupSubstring tbl name <;>
      simp [Option.orElse]

/-- A registry table of the C4 scenario: an exact `bug_priority` entry next to
a substring `priority` entry with a different pattern. -/
def bugPriorityTable : List (String × PatternVal) :=
  [("bug_priority", PatternVal.enumOpts ["Blocker", "Critical"]),
   ("priority", PatternVal.enumOpts ["High", "Medium", "Low"])]

/-- Witness for C4: with both entries of `bugPriorityTable` present,
`bug_priority` resolves to the exact-match pattern, not the substring one. -/
theorem field_distribution_resolution_witness :
    resolveFieldDistribution FieldType.enum bugPriorityTable [] "bug_priority"
      = some (PatternVal.enumOpts ["Blocker", "Critical"]) :=
  field_distribution_resolution.1 FieldType.enum bugPriorityTable [] "bug_priority"
    (PatternVal.enumOpts ["Blocker", "Critical"]) (by decide) (by decide)

/-! ### `DataValidator` (src/utils/validation.py)

The three-valued result status, the overall aggregation of
`validate_database_integrity`, the KL-divergence computation of
`_calculate_kl_divergence`, the completion-rate range check fed by the
`HAVING COUNT(t.id) >= 10` SQL aggregation, and the due-date distribution
check of `_validate_due_date_distributions`. Floating-point numbers are
modelled as exact reals. -/

/-- The `status` values a `ValidationResult` dictionary carries. -/
inductive VStatus where
  | success
  | failure
  | error
deriving DecidableEq

/-- The six per-category results assembled by `validate_database_integrity`. -/
structure CategoryResults where
  schemaValidation : VStatus
  temporalConsistency : VStatus
  referentialIntegrity : VStatus
  distributionValidation : VStatus
  businessRules : VStatus
  dataQuality : VStatus
deriving DecidableEq

/-- The `results.items()` iteration of `validate_database_integrity` (without
the `overall_status` key it skips). -/
def validationCategories (r : CategoryResults) : List (String × VStatus) :=
  [("schema_validation", r.schemaValidation),
   ("temporal_consistency", r.temporalConsistency),
   ("referential_integrity", r.referentialIntegrity),
   ("distribution_validation", r.distributionValidation),
   ("business_rules", r.businessRules),
   ("data_quality", r.dataQuality)]

/-- `failed_categories`: the categories whose status is `failure` (an `error`
status does not qualify). -/
def failedCategories (r : CategoryResults) : List String :=
  ((validationCategories r).filter (fun e => e.2 == VStatus.failure)).map (fun e => e.1)

/-- Overall verdict of `validate_database_integrity`: `failure` iff
`failed_categories` is nonempty, else the initial `success`. -/
def overallStatus (r : CategoryResults) : VStatus :=
  if failedCategories r = [] then VStatus.success else VStatus.failure

/-- C9: the overall verdict is `failure` exactly when some category reports
`failure` and `success` otherwise; `error` is a distinct representable status,
and categories that all report `error` (a storage fault during validation) do
not by themselves make the overall verdict `failure`. -/
theorem database_integrity_overall_status :
    (∀ r : CategoryResults,
      (overallStatus r = VStatus.failure ↔
        (r.schemaValidation = VStatus.failure ∨ r.temporalConsistency = VStatus.failure
          ∨ r.referentialIntegrity = VStatus.failure
          ∨ r.distributionValidation = VStatus.failure
          ∨ r.businessRules = VStatus.failure ∨ r.dataQuality = VStatus.failure))
      ∧ (overallStatus r = VStatus.success ↔
        ¬(r.schemaValidation = VStatus.failure ∨ r.temporalConsistency = VStatus.failure
          ∨ r.referentialIntegrity = VStatus.failure
          ∨ r.distributionValidation = VStatus.failure
          ∨ r.businessRules = VStatus.failure ∨ r.dataQuality = VStatus.failure)))
    ∧ VStatus.error ≠ VStatus.failure
    ∧ overallStatus
        { schemaValidation := VStatus.error, temporalConsistency := VStatus.error
          referentialIntegrity := VStatus.error, distributionValidation := VStatus.error
          businessRules := VStatus.error, dataQuality := VStatus.error }
      = VStatus.success := by
  refine ⟨?_, by decide, by decide⟩
  intro r
  obtain ⟨s1, s2, s3, s4, s5, s6⟩ := r
  constructor
  · cases s1 <;> cases s2 <;> cases s3 <;> cases s4 <;> cases s5 <;> cases s6 <;> decide
  · cases s1 <;> cases s2 <;> cases s3 <;> cases s4 <;> cases s5 <;> cases s6 <;> decide

/-- The smoothing factor `epsilon = 1e-10` of `_calculate_kl_divergence`. -/
def klEpsilon : ℝ := 1e-10

/-- Python `dist.get(bucket, 0)` over the modelled distribution dictionary. -/
def dGet (d : List (String × ℝ)) (b : String) : ℝ :=
  ((d.find? (fun e => e.1 == b)).map (fun e => e.2)).getD 0

/-- `all_buckets = set(dist1.keys()) | set(dist2.keys())` (iteration order is
irrelevant to the sums below). -/
def klBuckets (d1 d2 : List (String × ℝ)) : List String :=
  ((d1.map Prod.fst) ++ (d2.map Prod.fst)).dedup

/-- `DataValidator._calculate_kl_divergence` (src/utils/validation.py
708-744): smooth both distributions by `epsilon`, renormalize each by its own
sum, and return `Σ p·ln(p/q)` over the union of buckets. -/
noncomputable def klDivergence (d1 d2 : List (String × ℝ)) : ℝ :=
  let buckets := klBuckets d1 d2
  let s1 := (buckets.map (fun b => dGet d1 b + klEpsilon)).sum
  let s2 := (buckets.map (fun b => dGet d2 b + klEpsilon)).sum
  (buckets.map (fun b =>
    ((dGet d1 b + klEpsilon) / s1)
      * Real.log (((dGet d1 b + klEpsilon) / s1) / ((dGet d2 b + klEpsilon) / s2)))).sum

/-- The status classification a due-date segment receives from its divergence:
`success` iff the divergence is at most the similarity threshold. -/
noncomputable def klStatus (threshold kl : ℝ) : VStatus :=
  if kl ≤ threshold then VStatus.success else VStatus.failure

/-- C7: on identical observed and benchmark distributions the smoothed,
renormalized KL divergence is exactly 0, so the segment's status is `success`
for any nonnegative similarity threshold. -/
theorem kl_divergence_identical_zero (d : List (String × ℝ)) (threshold : ℝ)
    (h : 0 ≤ threshold) :
    klDivergence d d = 0 ∧ klStatus threshold (klDivergence d d) = VStatus.success := by
  have hzero : klDivergence d d = 0 := by
    unfold klDivergence
    apply List.sum_eq_zero
    intro x hx
    rw [List.mem_map] at hx
    obtain ⟨b, hb, rfl⟩ := hx
    set p := (dGet d b + klEpsilon)
      / ((klBuckets d d).map (fun b => dGet d b + klEpsilon)).sum with hp
    by_cases hp0 : p = 0
    · rw [hp0, zero_mul]
    · rw [div_self hp0, Real.log_one, mul_zero]
  refine ⟨hzero, ?_⟩
  rw [hzero]
  unfold klStatus
  rw [if_pos h]

/-- Witness for C7 at a one-bucket distribution and the default 0.05
threshold. -/
theorem kl_divergence_identical_zero_witness :
    klDivergence [("0-1_days", (1 : ℝ))] [("0-1_days", (1 : ℝ))] = 0
    ∧ klStatus (1/20) (klDivergence [("0-1_days", (1 : ℝ))] [("0-1_days", (1 : ℝ))])
      = VStatus.success :=
  kl_divergence_identical_zero [("0-1_days", (1 : ℝ))] (1/20) (by norm_num)

/-- A task row joined to its project, as consumed by the completion-rate SQL
of `_validate_distributions`. -/
structure TaskRow where
  department : String
  projectType : String
  completed : Bool

/-- One row of the completion-rate aggregation. -/
structure CompletionRateRow where
  department : String
  projectType : String
  total : ℕ
  completedCount : ℕ
  rate : ℚ

/-- The completion-rate SQL of `_validate_distributions`
(src/utils/validation.py 502-513): group tasks by (department, project_type),
compute the completion rate, and keep only groups with
`HAVING COUNT(t.id) >= 10`. -/
def completionRateRows (ts : List TaskRow) : List CompletionRateRow :=
  ((ts.map (fun t => (t.department, t.projectType))).dedup).filterMap (fun dp =>
    let g := ts.filter (fun t => t.department == dp.1 && t.projectType == dp.2)
    if 10 ≤ g.length then
      some { department := dp.1, projectType := dp.2, total := g.length
             completedCount := (g.filter (fun t => t.completed)).length
             rate := ((g.filter (fun t => t.completed)).length : ℚ) / (g.length : ℚ) }
    else none)

/-- Source `completion_rate_thresholds` with its `default` fallback. -/
def completionRateThresholds (projectType : String) : ℚ × ℚ :=
  if projectType = "sprint" then (65/100, 90/100)
  else if projectType = "bug_tracking" then (55/100, 75/100)
  else if projectType = "feature_development" then (45/100, 70/100)
  else if projectType = "research" then (25/100, 50/100)
  else if projectType = "campaign" then (60/100, 85/100)
  else (45/100, 75/100)

/-- One entry of `_validate_completion_rates`' results. -/
structure RateResult where
  department : String
  projectType : String
  rate : ℚ
  status : VStatus
  sampleSize : ℕ

/-- `DataValidator._validate_completion_rates` (src/utils/validation.py
593-643): a segment fails when its rate leaves the acceptable band;
`sample_size` is the group's task count. -/
def validateCompletionRates (rows : List CompletionRateRow) : List RateResult :=
  rows.map (fun row =>
    let th := completionRateThresholds row.projectType
    { department := row.department, projectType := row.projectType, rate := row.rate
      status := if row.rate < th.1 ∨ th.2 < row.rate then VStatus.failure else VStatus.success
      sampleSize := row.total })

/-- One row of the due-date bucket SQL (department, project type, bucket,
task count): note that query has no minimum-count filter. -/
structure DueDateRow where
  department : String
  projectType : String
  bucket : String
  count : ℕ

/-- One entry of `_validate_due_date_distributions`' results. -/
structure DueDateResult where
  department : String
  projectType : String
  klDiv : ℝ
  status : VStatus
  sampleSize : ℕ

/-- Source `benchmark_distributions['due_date_distributions']['sprint_tasks']`. -/
noncomputable def sprintBenchmark : List (String × ℝ) :=
  [("0-1_days", 15/100), ("2-3_days", 25/100), ("4-7_days", 30/100),
   ("8-14_days", 20/100), ("15+_days", 10/100)]

/-- Source `benchmark_distributions['due_date_distributions']['campaign_tasks']`. -/
noncomputable def campaignBenchmark : List (String × ℝ) :=
  [("0-1_days", 5/100), ("2-3_days", 10/100), ("4-7_days", 25/100),
   ("8-14_days", 35/100), ("15+_days", 25/100)]

/-- `DataValidator._validate_due_date_distributions` (src/utils/validation.py
645-706): group the bucket rows by (department, project_type) in first-seen
order, pick the sprint or campaign benchmark by substring match on the
lower-cased project type, convert counts to an observed distribution, compute
the KL divergence and classify against the similarity threshold. Every group
is evaluated — the function has no minimum-sample-size guard (both benchmarks
are nonempty, so the empty-benchmark `continue` never fires). -/
noncomputable def validateDueDateDistributions (threshold : ℝ) (rows : List DueDateRow) :
    List DueDateResult :=
  ((rows.map (fun r => (r.department, r.projectType))).dedup).map (fun dp =>
    let bucketCounts := (rows.filter
      (fun r => r.department == dp.1 && r.projectType == dp.2)).map
        (fun r => (r.bucket, r.count))
    let total : ℕ := (bucketCounts.map (fun e => e.2)).sum
    let benchmark :=
      if "sprint".data <:+: dp.2.toLower.data then sprintBenchmark else campaignBenchmark
    let observed := bucketCounts.map (fun e => (e.1, (e.2 : ℝ) / (total : ℝ)))
    { department := dp.1, projectType := dp.2
      klDiv := klDivergence observed benchmark
      status := klStatus threshold (klDivergence observed benchmark)
      sampleSize := total })

/-- C8 (amended): the completion-rate range check never evaluates a segment
with fewer than 10 observations — the SQL aggregation drops such groups, so
every produced result carries `sample_size ≥ 10` — but the due-date
KL-divergence check has no such guard and evaluates every segment. -/
theorem completion_rate_check_skips_small_segments (ts : List TaskRow) :
    ((validateCompletionRates (completionRateRows ts)).all
      (fun res => decide (10 ≤ res.sampleSize))) = true := by
  rw [List.all_eq_true]
  intro res hres
  unfold validateCompletionRates at hres
  rw [List.mem_map] at hres
  obtain ⟨row, hrow, rfl⟩ := hres
  unfold completionRateRows at hrow
  rw [List.mem_filterMap] at hrow
  obtain ⟨dp, hdp, hf⟩ := hrow
  simp only [] at hf
  split_ifs at hf with h10
  rw [Option.some_inj] at hf
  subst hf
  simpa using h10

theorem log_ratio_term_lower (p q : ℝ) (hp : 0 < p) (hq : 0 < q) :
    p - q ≤ p * Real.log (p / q) := by
  have h1 : Real.log (q / p) ≤ q / p - 1 := Real.log_le_sub_one_of_pos (div_pos hq hp)
  have h2 : Real.log (p / q) = - Real.log (q / p) := by
    rw [← Real.log_inv]
    congr 1
    field_simp
  have h3 : 1 - q / p ≤ Real.log (p / q) := by rw [h2]; linarith
  have h4 : p * (1 - q / p) ≤ p * Real.log (p / q) := mul_le_mul_of_nonneg_left h3 hp.le
  have h5 : p * (1 - q / p) = p - q := by field_simp
  linarith

theorem two_log_two_le_log (x : ℝ) (hx : 4 ≤ x) : 2 * Real.log 2 ≤ Real.log x := by
  have h4 : Real.log 4 = 2 * Real.log 2 := by
    rw [show (4:ℝ) = 2^2 by norm_num, Real.log_pow]
    push_cast
    ring
  rw [← h4]
  exact (Real.log_le_log_iff (by norm_num) (by linarith)).mpr hx

/-- The due-date rows of the C8 scenario: one segment with a single
observation. -/
def c8Rows : List DueDateRow :=
  [{ department := "engineering", projectType := "sprint", bucket := "0-1_days", count := 1 }]

/-- The observed distribution `_validate_due_date_distributions` builds for
`c8Rows`: all probability mass in the first bucket. -/
noncomputable def c8Observed : List (String × ℝ) :=
  [("0-1_days", ((1 : ℕ) : ℝ) / ((1 : ℕ) : ℝ))]

theorem klDivergence_c8_above_threshold :
    (1/20 : ℝ) < klDivergence c8Observed sprintBenchmark := by
  have hbuckets : klBuckets c8Observed sprintBenchmark
      = ["0-1_days", "2-3_days", "4-7_days", "8-14_days", "15+_days"] := by decide
  have e1 : dGet c8Observed "0-1_days" = 1 := by simp [dGet, c8Observed]
  have e2 : dGet c8Observed "2-3_days" = 0 := by simp [dGet, c8Observed]
  have e3 : dGet c8Observed "4-7_days" = 0 := by simp [dGet, c8Observed]
  have e4 : dGet c8Observed "8-14_days" = 0 := by simp [dGet, c8Observed]
  have e5 : dGet c8Observed "15+_days" = 0 := by simp [dGet, c8Observed]
  have b1 : dGet sprintBenchmark "0-1_days" = 15/100 := by simp [dGet, sprintBenchmark]
  have b2 : dGet sprintBenchmark "2-3_days" = 25/100 := by simp [dGet, sprintBenchmark]
  have b3 : dGet sprintBenchmark "4-7_days" = 30/100 := by simp [dGet, sprintBenchmark]
  have b4 : dGet sprintBenchmark "8-14_days" = 20/100 := by simp [dGet, sprintBenchmark]
  have b5 : dGet sprintBenchmark "15+_days" = 10/100 := by simp [dGet, sprintBenchmark]
  unfold klDivergence
  rw [hbuckets]
  simp only [List.map_cons, List.map_nil, List.sum_cons, List.sum_nil,
    e1, e2, e3, e4, e5, b1, b2, b3, b4, b5]
  have hs1 : (1 + klEpsilon) + ((0 + klEpsilon) + ((0 + klEpsilon) + ((0 + klEpsilon)
      + ((0 + klEpsilon) + 0)))) = 1 + 5*klEpsilon := by ring
  have hs2 : (15/100 + klEpsilon) + ((25/100 + klEpsilon) + ((30/100 + klEpsilon)
      + ((20/100 + klEpsilon) + ((10/100 + klEpsilon) + 0)))) = (1:ℝ) + 5*klEpsilon := by ring
  have hE : klEpsilon = 1/10000000000 := by norm_num [klEpsilon]
  rw [hs1, hs2, hE]
  have hS1 : (1:ℝ) ≤ 1 + 5 * (1/10000000000) := by norm_num
  have hp1pos : (0:ℝ) < (1 + 1/10000000000) / (1 + 5 * (1/10000000000)) := by norm_num
  have hratio : ((1 + 1/10000000000) / (1 + 5 * (1/10000000000)))
      / ((15/100 + 1/10000000000) / (1 + 5 * (1/10000000000)))
      = (1 + 1/10000000000 : ℝ) / (15/100 + 1/10000000000) := by
    field_simp
    ring
  have h4le : (4:ℝ) ≤ (1 + 1/10000000000) / (15/100 + 1/10000000000) := by
    rw [le_div_iff₀ (by norm_num)]
    norm_num
  have hlogmain : 2 * Real.log 2
      ≤ Real.log (((1 + 1/10000000000) / (1 + 5 * (1/10000000000)))
        / ((15/100 + 1/10000000000) / (1 + 5 * (1/10000000000)))) := by
    rw [hratio]
    exact two_log_two_le_log _ h4le
  have hlog2 : (0.6931471803 : ℝ) < Real.log 2 := Real.log_two_gt_d9
  have hp1ge : (9/10 : ℝ) ≤ (1 + 1/10000000000) / (1 + 5 * (1/10000000000)) := by
    rw [le_div_iff₀ (by norm_num)]
    norm_num
  have hmain : (9/10 : ℝ) * (2 * Real.log 2)
      ≤ ((1 + 1/10000000000) / (1 + 5 * (1/10000000000)))
        * Real.log (((1 + 1/10000000000) / (1 + 5 * (1/10000000000)))
          / ((15/100 + 1/10000000000) / (1 + 5 * (1/10000000000)))) := by
    calc (9/10 : ℝ) * (2 * Real.log 2)
        ≤ ((1 + 1/10000000000) / (1 + 5 * (1/10000000000))) * (2 * Real.log 2) := by
          apply mul_le_mul_of_nonneg_right hp1ge
          nlinarith [hlog2]
      _ ≤ _ := mul_le_mul_of_nonneg_left hlogmain hp1pos.le
  have htail : ∀ w : ℝ, 0 < w →
      -(w + 1/10000000000) ≤ ((0 + 1/10000000000) / (1 + 5 * (1/10000000000)))
        * Real.log (((0 + 1/10000000000) / (1 + 5 * (1/10000000000)))
          / ((w + 1/10000000000) / (1 + 5 * (1/10000000000)))) := by
    intro w hw
    have hppos : (0:ℝ) < (0 + 1/10000000000) / (1 + 5 * (1/10000000000)) := by norm_num
    have hqpos : (0:ℝ) < (w + 1/10000000000) / (1 + 5 * (1/10000000000)) := by positivity
    have h := log_ratio_term_lower _ _ hppos hqpos
    have hqle : (w + 1/10000000000) / (1 + 5 * (1/10000000000)) ≤ w + 1/10000000000 :=
      div_le_self (by positivity) hS1
    linarith
  have ht2 := htail (25/100) (by norm_num)
  have ht3 := htail (30/100) (by norm_num)
  have ht4 := htail (20/100) (by norm_num)
  have ht5 := htail (10/100) (by norm_num)
  linarith [hmain, ht2, ht3, ht4, ht5, hlog2]

/-- Counterexample to C8 as stated: `_validate_due_date_distributions`
evaluates the single-observation segment of `c8Rows` (sample size 1 < 10) and
produces a `failure` result for it instead of skipping it — only the
completion-rate SQL carries the `HAVING COUNT >= 10` guard. -/
theorem due_date_check_small_segment_counterexample :
    ((validateDueDateDistributions (1/20) c8Rows).map
      (fun res => (res.sampleSize, res.status))) = [(1, VStatus.failure)] := by
  have hstruct : validateDueDateDistributions (1/20) c8Rows
      = [{ department := "engineering", projectType := "sprint"
           klDiv := klDivergence c8Observed sprintBenchmark
           status := klStatus (1/20) (klDivergence c8Observed sprintBenchmark)
           sampleSize := 1 }] := by with_unfolding_all rfl
  have hstat : klStatus (1/20) (klDivergence c8Observed sprintBenchmark)
      = VStatus.failure := by
    unfold klStatus
    rw [if_neg (not_le.mpr klDivergence_c8_above_threshold)]
  rw [hstruct]
  simp only [List.map_cons, List.map_nil, hstat]

end AsanaAutomation
